import Mathlib

/-!
Verification development for the STEVE library (a C++ driver for EVE-series
display controllers).  The definitions below are shallow embeddings of the
C++ source: machine integers become Nat or Int with explicit reduction
modulo 2^16 (the uint16_t width) where the source relies on wrapping, and
the hardware transport becomes an explicit oracle of read values plus a
trace of transactions.  All definitions come first, the theorems follow.
-/

namespace Steve

/-- Size of the co-processor command buffer (RAM_CMD_SIZE in the source). -/
def RAM_CMD_SIZE : Nat := 4 * 1024

/-- Size of the display list RAM (RAM_DL_SIZE in the source). -/
def RAM_DL_SIZE : Nat := 8 * 1024

/-- Base address of the display list RAM (RAM_DL in the source). -/
def RAM_DL : Nat := 0x300000

/-- Pseudo read index reported by the EVE when a co-processor fault
occurred (READ_INDEX_ERROR in the source). -/
def READ_INDEX_ERROR : Nat := 0x0FFF

/-- Identification register, always 0x7C when the processor runs. -/
def REG_ID : Nat := 0x302000

/-- Clock frequency register. -/
def REG_FREQUENCY : Nat := 0x30200C

/-- Reset control register. -/
def REG_CPURESET : Nat := 0x302020

/-- Chip identifier word in RAM_G. -/
def REG_CHIP_ID : Nat := 0x0C0000

/-- Horizontal total cycle count register. -/
def REG_HCYCLE : Nat := 0x30202C

/-- Horizontal display start offset register. -/
def REG_HOFFSET : Nat := 0x302030

/-- Horizontal display size register. -/
def REG_HSIZE : Nat := 0x302034

/-- Horizontal sync fall offset register. -/
def REG_HSYNC0 : Nat := 0x302038

/-- Horizontal sync rise offset register. -/
def REG_HSYNC1 : Nat := 0x30203C

/-- Vertical total cycle count register. -/
def REG_VCYCLE : Nat := 0x302040

/-- Vertical display start offset register. -/
def REG_VOFFSET : Nat := 0x302044

/-- Vertical display line count register. -/
def REG_VSIZE : Nat := 0x302048

/-- Vertical sync fall offset register. -/
def REG_VSYNC0 : Nat := 0x30204C

/-- Vertical sync rise offset register. -/
def REG_VSYNC1 : Nat := 0x302050

/-- Display list swap control register. -/
def REG_DLSWAP : Nat := 0x302054

/-- Output bits resolution register. -/
def REG_OUTBITS : Nat := 0x30205C

/-- Output dither enable register. -/
def REG_DITHER : Nat := 0x302060

/-- Output RGB bit order control register. -/
def REG_SWIZZLE : Nat := 0x302064

/-- Output clock spreading enable register. -/
def REG_CSPREAD : Nat := 0x302068

/-- Pixel clock polarity register. -/
def REG_PCLK_POL : Nat := 0x30206C

/-- Pixel clock divider register. -/
def REG_PCLK : Nat := 0x302070

/-- Extended GPIO register. -/
def REG_GPIOX : Nat := 0x30209C

/-- Backlight PWM frequency register. -/
def REG_PWM_HZ : Nat := 0x3020D0

/-- Backlight PWM duty cycle register. -/
def REG_PWM_DUTY : Nat := 0x3020D4

/-- Command buffer read pointer register. -/
def REG_CMD_READ : Nat := 0x3020F8

/-- Command buffer write pointer register. -/
def REG_CMD_WRITE : Nat := 0x3020FC

/-- Touch screen sample mode register. -/
def REG_TOUCH_MODE : Nat := 0x302104

/-- Touch resistance threshold register. -/
def REG_TOUCH_RZTHRESH : Nat := 0x302118

/-- Host command: switch to Active. -/
def HOSTCMD_ACTIVE : Nat := 0x000000

/-- Host command: select the external clock. -/
def HOSTCMD_CLKEXT : Nat := 0x440000

/-- Host command: select the internal oscillator. -/
def HOSTCMD_CLKINT : Nat := 0x480000

/-- Host command: select the system clock frequency. -/
def HOSTCMD_CLKSEL : Nat := 0x610000

/-- Host command: set the drive strength of a group of pins. -/
def HOSTCMD_PINDRIVE : Nat := 0x700000

/-- Wildcard chip identifier: skip the chip identity check. -/
def CHIPID_ANY : Nat := 0

/-- Co-processor command word of cmd_MEMCRC. -/
def ENC_CMD_MEMCRC : Nat := 0xFFFFFF18

/-!
Class Index of max_value: a uint16_t field that is re-wrapped after every
change by the bitmask operation of the private member Wrap, namely
value AND (max_value - 1).  The template parameter max_value must be a
power of two.  We model the stored uint16_t as a Nat and the template
parameter as an explicit first argument M.
-/

/-- Wrap of class Index: mask the stored value with max_value - 1
(the source line is a bitwise AND assignment). -/
def Wrap (M x : Nat) : Nat := x &&& (M - 1)

/-- Constructor of class Index: store the uint16_t initial value (hence
the reduction modulo 2^16 of the caller's argument) and call Wrap. -/
def indexInit (M seed : Nat) : Nat := Wrap M (seed % 65536)

/-- Assignment operator += of class Index: the int16_t argument is added
to the uint16_t field (wrapping modulo 2^16), then Wrap runs. -/
def indexAdd (M i : Nat) (d : Int) : Nat := Wrap M ((((i : Int) + d) % 65536).toNat)

/-- Assignment operator -= of class Index: the int16_t argument is
subtracted from the uint16_t field (wrapping modulo 2^16), then Wrap runs. -/
def indexSub (M i : Nat) (d : Int) : Nat := Wrap M ((((i : Int) - d) % 65536).toNat)

/-- One in-place operation on an Index value: either operator += or
operator -= with an int16_t delta. -/
inductive IndexOp where
  | add (d : Int)
  | sub (d : Int)

/-- Apply one IndexOp to the stored value of an Index of modulus M. -/
def applyOp (M : Nat) (i : Nat) : IndexOp → Nat
  | .add d => indexAdd M i d
  | .sub d => indexSub M i d

/-- Run a finite sequence of in-place operations on an Index of modulus M,
starting from the stored value i; the result is what the accessor index()
returns afterwards. -/
def runOps (M i : Nat) (ops : List IndexOp) : Nat := ops.foldl (applyOp M) i

/-- Signed contribution of one IndexOp to the mathematical sum. -/
def IndexOp.delta : IndexOp → Int
  | .add d => d
  | .sub d => -d

/-- Mathematical (unwrapped) sum of the signed deltas of a sequence. -/
def netSum (ops : List IndexOp) : Int := (ops.map IndexOp.delta).sum

/-- Predicate: the delta of an operation fits in an int16_t. -/
def IndexOp.inRange : IndexOp → Bool
  | .add d => decide (-32768 ≤ d) && decide (d ≤ 32767)
  | .sub d => decide (-32768 ≤ d) && decide (d ≤ 32767)

/-!
SendString of class SteveHAL.  The C string argument is modelled as an
optional list of byte values, the list holding exactly the characters
before the terminating nul.  SendString's loop runs a uint16_t counter
named result from 0 while it is below maxlen - 1, reads the next
character, breaks on a nul without sending it, and sends the character
otherwise; after the loop one nul byte is always sent and the uint16_t
counter is incremented once more.  The comparison result < maxlen - 1
is subject to C++ integral promotion, so the bound depends on the
target's int width; the embedding carries that choice as an explicit
flag.  The model returns the final counter value and the list of
transmitted bytes.
-/

/-- Loop of SendString: budget is the number of loop iterations that the
counter can still perform; the result is the list of characters sent by
the loop (the loop breaks on the string's terminating nul, modelled by
the empty list, or on an embedded zero byte, without sending it). -/
def sendStringLoop : List Nat → Nat → List Nat
  | _, 0 => []
  | [], _ + 1 => []
  | c :: rest, b + 1 => if c = 0 then [] else c :: sendStringLoop rest b

/-- SendString of class SteveHAL: a NULL message pointer is replaced by
the empty string; returns the uint16_t count of bytes sent and the
transmitted byte list (loop characters followed by the final nul byte).
The loop bound is the promoted value of maxlen - 1: on a target whose
int is 16 bits wide (AVR) the uint16_t operands promote to unsigned int
and maxlen - 1 wraps modulo 2^16, so maxlen = 0 yields the bound 65535
as the source comments describe; on a target whose int is wider than
16 bits (the repository's Windows port, 32-bit Arduino cores) they
promote to int, maxlen - 1 is -1 when maxlen = 0, the comparison is
never true and the loop runs zero times.  For maxlen of 1 or more both
promotions yield the bound maxlen - 1.  The int16 flag selects the
16-bit-int target. -/
def SendString (int16 : Bool) (message : Option (List Nat)) (maxlen : Nat) : Nat × List Nat :=
  let s : List Nat := match message with
    | none => []
    | some m => m
  let bound : Nat := if int16 then (maxlen + 65535) % 65536 else maxlen - 1
  let sent : List Nat := sendStringLoop s bound
  ((sent.length + 1) % 65536, sent ++ [0])

/-!
Co-processor command queue of class Steve.  The local write index
_cmd_index is an Index of RAM_CMD_SIZE; only the index arithmetic matters
for the claims below, so the embedding follows the index updates of each
member function and leaves the SPI payload implicit.
-/

/-- CmdGetFreeCmdSpace of class Steve: the used space is the wrapped
difference between the local write index w and the hardware read index r
(Index operator - with the int16_t read value), and the result is
RAM_CMD_SIZE - 4 minus the used space, computed in the uint16_t domain. -/
def CmdGetFreeCmdSpace (w r : Nat) : Nat :=
  let used_space : Nat := indexSub RAM_CMD_SIZE w (r : Int)
  ((((RAM_CMD_SIZE : Int) - 4) - (used_space : Int)) % 65536).toNat

/-- Cmd of class Steve, restricted to its write index update: the 32-bit
command word is sent to the buffer and the local index advances by 4
(Index operator += with the constant 4), wrapping at RAM_CMD_SIZE. -/
def Cmd (w : Nat) : Nat := indexAdd RAM_CMD_SIZE w 4

/-- Iterate Cmd n times, appending 4 n command bytes. -/
def CmdN (w : Nat) : Nat → Nat
  | 0 => w
  | n + 1 => CmdN (Cmd w) n

/-- CmdIsBusy of class Steve on the local write index w and the value ri
read from REG_CMD_READ: the first component is the returned busy flag,
the second is the error flag stored through the optional pError output. -/
def CmdIsBusy (w ri : Nat) : Bool × Bool :=
  let error : Bool := ri == READ_INDEX_ERROR
  (!error && (ri != w), error)

/-- cmd_MEMCRC of class Steve, restricted to its write index arithmetic.
The generated function first stores the 4-byte command word through Cmd,
then accumulates the int16_t byte count named result while sending the
two 4-byte inputs (V4 ptr, V4 num); the Q4 output slot stores
_cmd_index + result through the caller's pointer before sending the four
reserved zero bytes (V4 0); finally _cmd_index advances by result.  The
returned pair is (value stored through the output pointer, final write
index). -/
def cmd_MEMCRC (w : Nat) : Nat × Nat :=
  let i1 : Nat := Cmd w
  let result2 : Nat := 0 + 4 + 4
  let stored : Nat := indexAdd RAM_CMD_SIZE i1 (result2 : Int)
  let result3 : Nat := result2 + 4
  (stored, indexAdd RAM_CMD_SIZE i1 (result3 : Int))

/-!
Initialization.  The hardware transport is an oracle env assigning a
value to every read transaction, numbered in the order the reads occur;
the run of a function is summarized as a trace of events.
-/

/-- Events of the embedded hardware transport: a read transaction at an
address, a write transaction at an address, or a host command with its
parameter byte. -/
inductive Ev where
  | rd (addr : Nat)
  | wr (addr : Nat)
  | hc (cmd param : Nat)
deriving DecidableEq

/-- Outcome of Begin: success, or one of its three early failure
returns (identification poll timeout, reset poll timeout, chip
identity mismatch). -/
inductive BeginResult where
  | ok
  | failIdTimeout
  | failResetTimeout
  | failChipMismatch
deriving DecidableEq

/-- RegWait8 of class Steve, instrumented: env yields the value of the
n-th read transaction of the run, n is the number of reads already
performed, and the last argument is the current value of the uint8_t
countdown named result in the source.  The source reads the register,
decrements result, and returns result on a match, so a first match on
the last allowed read returns 0.  Returns the final result value, the
new read count and the trace of read events. -/
def regWait8 (env : Nat → Nat) (addr value : Nat) : Nat → Nat → Nat × Nat × List Ev
  | n, 0 => (0, n, [])
  | n, fuel + 1 =>
      if env n = value then (fuel, n + 1, [Ev.rd addr])
      else
        let rest := regWait8 env addr value (n + 1) fuel
        (rest.1, rest.2.1, Ev.rd addr :: rest.2.2)

/-- Display profile of class SteveDisplay.  The C++ fields carry a
leading underscore; the embedding drops it.  The uint16_t timing fields
are Nats already reduced modulo 2^16. -/
structure SteveDisplay where
  clkext : Bool
  clksel : Nat
  chipid : Nat
  frequency : Nat
  lcd10ma : Bool
  cspread : Bool
  dither : Bool
  outbits : Nat
  hsize : Nat
  hcycle : Nat
  hoffset : Nat
  hsync0 : Nat
  hsync1 : Nat
  vsize : Nat
  vcycle : Nat
  voffset : Nat
  vsync0 : Nat
  vsync1 : Nat
  swizzle : Nat
  pclkpol : Nat
  pclk : Nat
  pindrivetable : Option (List Nat)

/-- Constructor of SteveDisplay: computes the timing fields from the
per-axis width, front porch, sync width, back porch and padding
arguments, in uint16_t arithmetic; the remaining members get the
defaults of the initializer list (internal clock, default clock select,
wildcard chip id, no stored frequency, no pin drive table). -/
def SteveDisplayMk (width hfrontporch hsyncwidth hbackporch hpadding
    height vfrontporch vsyncheight vbackporch vpadding
    pclk pclkpol swizzle : Nat) : SteveDisplay where
  clkext := false
  clksel := 0
  chipid := CHIPID_ANY
  frequency := 0
  lcd10ma := false
  cspread := false
  dither := false
  outbits := 0
  hsize := width % 65536
  hcycle := (hfrontporch + hsyncwidth + hbackporch + width + hpadding) % 65536
  hoffset := (hfrontporch + hsyncwidth + hbackporch) % 65536
  hsync0 := hfrontporch % 65536
  hsync1 := (hfrontporch + hsyncwidth) % 65536
  vsize := height % 65536
  vcycle := (vfrontporch + vsyncheight + vbackporch + height + vpadding) % 65536
  voffset := (vfrontporch + vsyncheight + vbackporch) % 65536
  vsync0 := vfrontporch % 65536
  vsync1 := (vfrontporch + vsyncheight) % 65536
  swizzle := swizzle % 256
  pclkpol := pclkpol % 256
  pclk := pclk % 256
  pindrivetable := none

/-- Host commands issued for the profile's pin drive table: the source
walks the table until its 0xFF terminator (the model lists the entries
before the terminator) and issues one HOSTCMD_PINDRIVE per entry; a NULL
table issues nothing. -/
def pindriveTrace : Option (List Nat) → List Ev
  | none => []
  | some entries => entries.map (fun e => Ev.hc HOSTCMD_PINDRIVE e)

/-- Begin of class Steve, instrumented over the transport oracle env.
The trace records read transactions, write transactions and host
commands in program order; power, chip select and delays produce no
events.  EarlyInit and TouchInit are the base-class implementations
(EarlyInit does nothing and succeeds; TouchInit writes the two touch
registers and succeeds).  The chip identity check runs only when the
profile's chip id differs from the wildcard; the identity read consumes
the next oracle value. -/
def Begin (p : SteveDisplay) (env : Nat → Nat) : BeginResult × List Ev :=
  let ev0 : List Ev :=
    [Ev.hc (if p.clkext then HOSTCMD_CLKEXT else HOSTCMD_CLKINT) 0,
     Ev.hc HOSTCMD_CLKSEL p.clksel,
     Ev.hc HOSTCMD_ACTIVE 0]
  let r1 := regWait8 env REG_ID 0x7C 0 250
  if r1.1 = 0 then (BeginResult.failIdTimeout, ev0 ++ r1.2.2)
  else
    let r2 := regWait8 env REG_CPURESET 0 r1.2.1 250
    if r2.1 = 0 then (BeginResult.failResetTimeout, ev0 ++ r1.2.2 ++ r2.2.2)
    else
      let chipEvents : List Ev :=
        if p.chipid ≠ CHIPID_ANY then [Ev.rd REG_CHIP_ID] else []
      if p.chipid ≠ CHIPID_ANY ∧ p.chipid ≠ env r2.2.1 then
        (BeginResult.failChipMismatch, ev0 ++ r1.2.2 ++ r2.2.2 ++ chipEvents)
      else
        let freqEvents : List Ev :=
          if p.frequency ≠ 0 then [Ev.wr REG_FREQUENCY] else []
        let cmdEvents : List Ev := [Ev.rd REG_CMD_WRITE]
        let setupEvents : List Ev :=
          [Ev.wr REG_PCLK, Ev.wr REG_PWM_DUTY,
           Ev.wr REG_HSIZE, Ev.wr REG_HCYCLE, Ev.wr REG_HOFFSET,
           Ev.wr REG_HSYNC0, Ev.wr REG_HSYNC1,
           Ev.wr REG_VSIZE, Ev.wr REG_VCYCLE, Ev.wr REG_VOFFSET,
           Ev.wr REG_VSYNC0, Ev.wr REG_VSYNC1,
           Ev.wr REG_SWIZZLE, Ev.wr REG_PCLK_POL,
           Ev.rd REG_GPIOX, Ev.wr REG_GPIOX]
        let pindriveEvents : List Ev := pindriveTrace p.pindrivetable
        let outEvents : List Ev :=
          [Ev.wr REG_CSPREAD, Ev.wr REG_DITHER]
            ++ (if p.outbits ≠ 0 then [Ev.wr REG_OUTBITS] else [])
        let touchEvents : List Ev := [Ev.wr REG_TOUCH_MODE, Ev.wr REG_TOUCH_RZTHRESH]
        let dlEvents : List Ev :=
          [Ev.wr (RAM_DL + 0), Ev.wr (RAM_DL + 4), Ev.wr (RAM_DL + 8),
           Ev.wr REG_DLSWAP,
           Ev.rd REG_GPIOX, Ev.wr REG_GPIOX,
           Ev.wr REG_PCLK,
           Ev.wr REG_PWM_HZ, Ev.wr REG_PWM_DUTY]
        (BeginResult.ok,
          ev0 ++ r1.2.2 ++ r2.2.2 ++ chipEvents ++ freqEvents ++ cmdEvents
            ++ setupEvents ++ pindriveEvents ++ outEvents ++ touchEvents ++ dlEvents)

/-- Transport oracle used by concrete witnesses: the first read returns
0x7C (the running processor id) and every later read returns 0 (so the
reset poll succeeds at once). -/
def envRuns : Nat → Nat := fun n => if n = 0 then 0x7C else 0

/-- Transport oracle whose reads always return 0x7C. -/
def envAlways7C : Nat → Nat := fun _ => 0x7C

/-!
Theorems.
-/

lemma Wrap_pow (k x : Nat) : Wrap (2 ^ k) x = x % 2 ^ k :=
  Nat.and_pow_two_sub_one_eq_mod x k

lemma toNat_mod_pow (a : Int) (k : Nat) (hk : k ≤ 16) :
    (a % 65536).toNat % 2 ^ k = (a % 2 ^ k).toNat := by
  have h1 : (0 : Int) ≤ a % 65536 := Int.emod_nonneg a (by norm_num)
  have hdvd : ((2 : Int) ^ k) ∣ 65536 := by
    have : ((2 : Int) ^ k) ∣ 2 ^ 16 := pow_dvd_pow 2 hk
    simpa using this
  have key : a % 65536 % 2 ^ k = a % 2 ^ k := Int.emod_emod_of_dvd a hdvd
  have hx : ((a % 65536).toNat : Int) = a % 65536 := Int.toNat_of_nonneg h1
  have h2 : (((a % 65536).toNat % 2 ^ k : Nat) : Int) = a % 2 ^ k := by
    push_cast [hx]
    exact key
  rw [← h2, Int.toNat_natCast]

lemma indexAdd_pow (k : Nat) (hk : k ≤ 16) (i : Nat) (d : Int) :
    indexAdd (2 ^ k) i d = (((i : Int) + d) % 2 ^ k).toNat := by
  rw [indexAdd, Wrap_pow, toNat_mod_pow _ k hk]

lemma indexSub_pow (k : Nat) (hk : k ≤ 16) (i : Nat) (d : Int) :
    indexSub (2 ^ k) i d = (((i : Int) - d) % 2 ^ k).toNat := by
  rw [indexSub, Wrap_pow, toNat_mod_pow _ k hk]

lemma toNat_emod_lt (a : Int) (k : Nat) : (a % (2 ^ k : Int)).toNat < 2 ^ k := by
  have hpos : (0 : Int) < 2 ^ k := by positivity
  have h1 : a % (2 ^ k : Int) < 2 ^ k := Int.emod_lt_of_pos a hpos
  have h2 : (0 : Int) ≤ a % (2 ^ k : Int) := Int.emod_nonneg a (by positivity)
  have : ((2 ^ k : Nat) : Int) = (2 ^ k : Int) := by push_cast; ring
  omega

lemma applyOp_pow (k : Nat) (hk : k ≤ 16) (i : Nat) (op : IndexOp) :
    applyOp (2 ^ k) i op = (((i : Int) + op.delta) % 2 ^ k).toNat := by
  cases op with
  | add d => rw [applyOp, indexAdd_pow k hk, IndexOp.delta]
  | sub d =>
      rw [applyOp, indexSub_pow k hk, IndexOp.delta]
      simp [sub_eq_add_neg]

lemma runOps_spec (k : Nat) (hk : k ≤ 16) :
    ∀ (ops : List IndexOp) (i : Nat), i < 2 ^ k →
      runOps (2 ^ k) i ops = (((i : Int) + netSum ops) % 2 ^ k).toNat := by
  intro ops
  induction ops with
  | nil =>
      intro i hi
      have h1 : ((i : Int) + netSum []) % 2 ^ k = (i : Int) := by
        rw [netSum]
        simp only [List.map_nil, List.sum_nil, add_zero]
        refine Int.emod_eq_of_lt (by positivity) ?_
        exact_mod_cast hi
      rw [runOps, List.foldl_nil, h1, Int.toNat_natCast]
  | cons op rest ih =>
      intro i hi
      have hstep : runOps (2 ^ k) i (op :: rest)
          = runOps (2 ^ k) (applyOp (2 ^ k) i op) rest := by
        rw [runOps, List.foldl_cons, runOps]
      have hlt : applyOp (2 ^ k) i op < 2 ^ k := by
        rw [applyOp_pow k hk]
        exact toNat_emod_lt _ k
      rw [hstep, ih _ hlt, applyOp_pow k hk]
      have hcast : (((((i : Int) + op.delta) % 2 ^ k).toNat : Int))
          = ((i : Int) + op.delta) % 2 ^ k :=
        Int.toNat_of_nonneg (Int.emod_nonneg _ (by positivity))
      have hnet : netSum (op :: rest) = op.delta + netSum rest := by
        rw [netSum, netSum, List.map_cons, List.sum_cons]
      rw [hcast, hnet, Int.emod_add_emod, ← add_assoc]

/-- C2: for every power-of-two modulus M = 2^k representable in the
uint16_t machine (k ≤ 16), every initial seed and every finite sequence of
in-place additions and subtractions of int16_t deltas applied to an
Index of M, the value returned by index() equals the mathematical sum
(seed plus signed deltas) reduced modulo M, and in particular lies in
the interval from 0 up to (but excluding) M. -/
theorem steve_C2_index_wrapping (k : Nat) (hk : k ≤ 16) (seed : Nat)
    (ops : List IndexOp) (hops : ∀ op ∈ ops, op.inRange = true) :
    runOps (2 ^ k) (indexInit (2 ^ k) seed) ops
      = (((seed : Int) + netSum ops) % 2 ^ k).toNat
    ∧ runOps (2 ^ k) (indexInit (2 ^ k) seed) ops < 2 ^ k := by
  have hdvd : (2 ^ k) ∣ 65536 := by
    have h : (2 : Nat) ^ k ∣ 2 ^ 16 := pow_dvd_pow 2 hk
    simpa using h
  have hinit : indexInit (2 ^ k) seed = seed % 2 ^ k := by
    rw [indexInit, Wrap_pow, Nat.mod_mod_of_dvd seed hdvd]
  have hlt : indexInit (2 ^ k) seed < 2 ^ k := by
    rw [hinit]
    exact Nat.mod_lt seed (by positivity)
  have hmain := runOps_spec k hk ops _ hlt
  have hseed : (((indexInit (2 ^ k) seed : Nat) : Int) + netSum ops) % 2 ^ k
      = ((seed : Int) + netSum ops) % 2 ^ k := by
    rw [hinit]
    have : (((seed % 2 ^ k : Nat) : Int)) = (seed : Int) % 2 ^ k := by
      push_cast
      ring
    rw [this, Int.emod_add_emod]
  constructor
  · rw [hmain, hseed]
  · rw [hmain]
    exact toNat_emod_lt _ k

/-- Witness for C2 at the concrete modulus 2^12 = RAM_CMD_SIZE, seed 5 and
the operation sequence add 100, sub 300, add 32767. -/
theorem steve_C2_index_wrapping_witness :
    runOps (2 ^ 12) (indexInit (2 ^ 12) 5)
        [IndexOp.add 100, IndexOp.sub 300, IndexOp.add 32767]
      = ((((5 : Nat) : Int)
          + netSum [IndexOp.add 100, IndexOp.sub 300, IndexOp.add 32767]) % 2 ^ 12).toNat
    ∧ runOps (2 ^ 12) (indexInit (2 ^ 12) 5)
        [IndexOp.add 100, IndexOp.sub 300, IndexOp.add 32767] < 2 ^ 12 :=
  steve_C2_index_wrapping 12 (by norm_num) 5
    [IndexOp.add 100, IndexOp.sub 300, IndexOp.add 32767] (by decide)

lemma sendStringLoop_nil (b : Nat) : sendStringLoop [] b = [] := by
  cases b with
  | zero => rfl
  | succ b => rfl

lemma sendStringLoop_take (s : List Nat) (hs : ∀ c ∈ s, c ≠ 0) :
    ∀ b : Nat, sendStringLoop s b = s.take b := by
  induction s with
  | nil =>
      intro b
      rw [sendStringLoop_nil, List.take_nil]
  | cons c rest ih =>
      intro b
      cases b with
      | zero => rfl
      | succ b =>
          have hc : c ≠ 0 := hs c (List.mem_cons_self c rest)
          have hrest : ∀ x ∈ rest, x ≠ 0 := fun x hx => hs x (List.mem_cons_of_mem c hx)
          rw [sendStringLoop, if_neg hc, ih hrest b, List.take_succ_cons]

/-- C6: for every non-null string of length L (its characters, all
nonzero, listed before the terminating nul) and every max-length N with
0 < N (and N representable as a uint16_t), SendString transmits exactly
min(L, N-1) + 1 bytes: the first min(L, N-1) characters of the string
followed by a final zero byte.  For N of 1 or more the promoted loop
bound is N - 1 under either int width, so the statement holds for both
target families. -/
theorem steve_C6_sendString_truncates (int16 : Bool) (msg : List Nat) (N : Nat)
    (hmsg : ∀ c ∈ msg, c ≠ 0) (hN : 0 < N) (hN2 : N < 65536) :
    (SendString int16 (some msg) N).2 = msg.take (N - 1) ++ [0]
    ∧ (SendString int16 (some msg) N).2.length = min msg.length (N - 1) + 1 := by
  have hbound : (if int16 then (N + 65535) % 65536 else N - 1) = N - 1 := by
    cases int16 with
    | false => rfl
    | true =>
        simp only [if_true]
        omega
  have hsent : (SendString int16 (some msg) N).2 = msg.take (N - 1) ++ [0] := by
    rw [SendString]
    simp only [hbound, sendStringLoop_take msg hmsg]
  refine ⟨hsent, ?_⟩
  rw [hsent, List.length_append, List.length_take, List.length_cons,
    List.length_nil, Nat.min_comm]

/-- Witness for C6 on the 16-bit-int target with the two-character string
72, 105 and max length 2: only the first character is sent, followed by
the nul terminator. -/
theorem steve_C6_sendString_truncates_witness :
    (SendString true (some [72, 105]) 2).2 = [72, 105].take (2 - 1) ++ [0]
    ∧ (SendString true (some [72, 105]) 2).2.length
        = min ([72, 105] : List Nat).length (2 - 1) + 1 :=
  steve_C6_sendString_truncates true [72, 105] 2 (by decide) (by decide) (by decide)

/-- C9: for every max-length N > 0 and either int width, SendString with
a NULL message pointer transmits exactly one byte, of value zero, and
returns 1: the NULL string is treated as the empty string. -/
theorem steve_C9_sendString_null (int16 : Bool) (N : Nat) (hN : 0 < N) :
    SendString int16 none N = (1, [0]) := by
  rw [SendString]
  simp only [sendStringLoop_nil, List.length_nil, List.nil_append]

/-- Witness for C9 on the wide-int target at max length 7. -/
theorem steve_C9_sendString_null_witness :
    SendString false none 7 = (1, [0]) :=
  steve_C9_sendString_null false 7 (by decide)

/-- C10 counterexample: on a target whose int is wider than 16 bits
(the repository's own Windows port and 32-bit Arduino cores), SendString
with maxlen 0 and the two-character string 65, 66 transmits exactly one
byte, the terminator, rather than the string's characters followed by
the terminator: the promoted loop bound is the int value -1, not a
16-bit wraparound to 65535, so the unconditional wrap stated by the
claim fails on this input. -/
theorem steve_C10_sendString_maxlen_zero_counterexample :
    (SendString false (some [65, 66]) 0).2 = [0]
    ∧ (SendString false (some [65, 66]) 0).1 = 1
    ∧ (SendString false (some [65, 66]) 0).2 ≠ [65, 66].take 65535 ++ [0] := by
  decide

/-- C10 amended: the behavior of SendString at maxlen 0 depends on the
target's int width.  On a 16-bit-int target (AVR) the promoted loop
bound maxlen - 1 wraps to 65535, so up to 65535 non-nul characters plus
the terminating zero byte are transmitted, as if the maximum length were
65536; on a target whose int is wider than 16 bits the promoted bound is
-1, the loop runs zero times, and exactly one byte, the terminating
zero, is transmitted. -/
theorem steve_C10_sendString_maxlen_zero (msg : List Nat)
    (hmsg : ∀ c ∈ msg, c ≠ 0) :
    ((SendString true (some msg) 0).2 = msg.take 65535 ++ [0]
      ∧ (SendString true (some msg) 0).2.length = min msg.length 65535 + 1)
    ∧ ((SendString false (some msg) 0).2 = [0]
      ∧ (SendString false (some msg) 0).1 = 1) := by
  constructor
  · have hsent : (SendString true (some msg) 0).2 = msg.take 65535 ++ [0] := by
      rw [SendString]
      simp only [if_true, Nat.zero_add, sendStringLoop_take msg hmsg]
    refine ⟨hsent, ?_⟩
    rw [hsent, List.length_append, List.length_take, List.length_cons,
      List.length_nil, Nat.min_comm]
  · have hzero : ∀ s : List Nat, sendStringLoop s 0 = [] := by
      intro s
      cases s with
      | nil => rfl
      | cons c rest => rfl
    constructor
    · rw [SendString]
      simp [hzero]
    · rw [SendString]
      simp [hzero]

/-- Witness for C10 with the two-character string 65, 66: on the
16-bit-int target both characters and the nul terminator go out even
though maxlen is 0, while on the wide-int target only the nul
terminator does. -/
theorem steve_C10_sendString_maxlen_zero_witness :
    ((SendString true (some [65, 66]) 0).2 = [65, 66].take 65535 ++ [0]
      ∧ (SendString true (some [65, 66]) 0).2.length
          = min ([65, 66] : List Nat).length 65535 + 1)
    ∧ ((SendString false (some [65, 66]) 0).2 = [0]
      ∧ (SendString false (some [65, 66]) 0).1 = 1) :=
  steve_C10_sendString_maxlen_zero [65, 66] (by decide)

lemma RAM_CMD_SIZE_pow : RAM_CMD_SIZE = 2 ^ 12 := by norm_num [RAM_CMD_SIZE]

lemma indexAdd_nat (i d : Nat) : indexAdd RAM_CMD_SIZE i (d : Int) = (i + d) % 4096 := by
  rw [RAM_CMD_SIZE_pow, indexAdd_pow 12 (by norm_num)]
  have h : ((i : Int) + d) % 2 ^ 12 = (((i + d) % 4096 : Nat) : Int) := by
    push_cast
    norm_num
  rw [h, Int.toNat_natCast]

lemma indexSub_nat (i d : Nat) : indexSub RAM_CMD_SIZE i (d : Int)
    = ((((i : Int) - d) % 4096)).toNat := by
  rw [RAM_CMD_SIZE_pow, indexSub_pow 12 (by norm_num)]
  norm_num

lemma Cmd_eq (w : Nat) : Cmd w = (w + 4) % 4096 := by
  rw [Cmd, RAM_CMD_SIZE_pow, indexAdd_pow 12 (by norm_num)]
  have h : ((w : Int) + 4) % 2 ^ 12 = (((w + 4) % 4096 : Nat) : Int) := by
    push_cast
    norm_num
  rw [h, Int.toNat_natCast]

lemma CmdN_closed : ∀ (n w : Nat), w < 4096 → CmdN w n = (w + 4 * n) % 4096 := by
  intro n
  induction n with
  | zero =>
      intro w hw
      rw [CmdN]
      omega
  | succ n ih =>
      intro w hw
      rw [CmdN, Cmd_eq, ih ((w + 4) % 4096) (Nat.mod_lt _ (by norm_num))]
      omega

/-- C1: for every local write index w of the command queue and every
hardware read index r below RAM_CMD_SIZE, CmdGetFreeCmdSpace returns
(RAM_CMD_SIZE - 4) minus the wrapped difference (w - r) mod RAM_CMD_SIZE,
the subtraction being carried out in the uint16_t return domain; and
starting from w = r, appending K = 4 n command bytes through Cmd with no
hardware drain leaves a free space of (RAM_CMD_SIZE - 4 - K) mod
RAM_CMD_SIZE for every K below RAM_CMD_SIZE - 4. -/
theorem steve_C1_free_space (w r : Nat) (hw : w < RAM_CMD_SIZE) (hr : r < RAM_CMD_SIZE) :
    CmdGetFreeCmdSpace w r
      = ((((RAM_CMD_SIZE : Int) - 4) - (((w : Int) - (r : Int)) % RAM_CMD_SIZE)) % 65536).toNat
    ∧ ∀ n : Nat, 4 * n < RAM_CMD_SIZE - 4 →
        CmdGetFreeCmdSpace (CmdN r n) r = (RAM_CMD_SIZE - 4 - 4 * n) % RAM_CMD_SIZE := by
  have hmain : ∀ v : Nat, CmdGetFreeCmdSpace v r
      = ((((RAM_CMD_SIZE : Int) - 4) - (((v : Int) - (r : Int)) % RAM_CMD_SIZE)) % 65536).toNat := by
    intro v
    simp only [CmdGetFreeCmdSpace, indexSub_nat]
    rw [Int.toNat_of_nonneg (Int.emod_nonneg _ (by norm_num))]
    norm_num [RAM_CMD_SIZE]
  refine ⟨hmain w, ?_⟩
  intro n hn
  have hr4096 : r < 4096 := by
    rw [RAM_CMD_SIZE_pow] at hr
    omega
  have hn4092 : 4 * n < 4092 := by
    rw [RAM_CMD_SIZE_pow] at hn
    omega
  rw [CmdN_closed n r hr4096, hmain, RAM_CMD_SIZE_pow]
  have hcast : ((((r + 4 * n) % 4096 : Nat) : Int)) = ((r : Int) + 4 * n) % 4096 := by
    push_cast
    ring_nf
  have hpowN : ((2 : Nat) ^ 12) = 4096 := by norm_num
  have hpowC : (((2 ^ 12 : Nat)) : Int) = 4096 := by norm_num
  rw [hcast, hpowC]
  have hsub : (((r : Int) + 4 * n) % 4096 - (r : Int)) % 4096 = (4 * n : Int) := by
    rw [Int.sub_emod, Int.emod_emod_of_dvd _ (by norm_num)]
    rw [← Int.sub_emod]
    have h1 : ((r : Int) + 4 * n - r) = (4 * n : Int) := by ring
    rw [h1]
    refine Int.emod_eq_of_lt (by positivity) ?_
    exact_mod_cast (by omega : 4 * n < 4096)
  rw [hsub, hpowN]
  have h2 : ((4096 : Int) - 4 - 4 * n) % 65536 = ((4092 : Int) - 4 * n) % 65536 := by
    norm_num
  rw [h2]
  have h3 : ((4092 : Int) - 4 * n) % 65536 = ((4092 - 4 * n : Nat) : Int) := by
    have : ((4092 : Int) - 4 * n) = ((4092 - 4 * n : Nat) : Int) := by
      push_cast [Nat.cast_sub (by omega : 4 * n ≤ 4092)]
      ring
    rw [this]
    refine Int.emod_eq_of_lt (by positivity) ?_
    exact_mod_cast (by omega : 4092 - 4 * n < 65536)
  rw [h3, Int.toNat_natCast]
  omega

/-- Witness for C1 at w = 10, r = 6 and drain-free appends n = 3 from
w = r = 6. -/
theorem steve_C1_free_space_witness :
    CmdGetFreeCmdSpace 10 6
      = ((((RAM_CMD_SIZE : Int) - 4) - ((((10 : Nat) : Int) - ((6 : Nat) : Int)) % RAM_CMD_SIZE)) % 65536).toNat
    ∧ ∀ n : Nat, 4 * n < RAM_CMD_SIZE - 4 →
        CmdGetFreeCmdSpace (CmdN 6 n) 6 = (RAM_CMD_SIZE - 4 - 4 * n) % RAM_CMD_SIZE :=
  steve_C1_free_space 10 6 (by norm_num [RAM_CMD_SIZE]) (by norm_num [RAM_CMD_SIZE])

/-- C4: for every local write index w and every value ri read from the
hardware read pointer, CmdIsBusy stores true through the error output
exactly when ri is the fault sentinel READ_INDEX_ERROR, and reports busy
exactly when ri is neither the sentinel nor equal to w (so it reports
ready whenever ri is the sentinel, and ready when ri equals w). -/
theorem steve_C4_cmdIsBusy (w ri : Nat) :
    ((CmdIsBusy w ri).2 = true ↔ ri = READ_INDEX_ERROR)
    ∧ ((CmdIsBusy w ri).1 = true ↔ (ri ≠ READ_INDEX_ERROR ∧ ri ≠ w)) := by
  simp [CmdIsBusy]

/-- C7: for every write index w of the command queue, the cmd_MEMCRC
record stores through the caller's output pointer the write position
just before the four reserved zero bytes of the Q4 slot, namely the
entry index plus the 12 bytes already emitted for the record (4-byte
command word and two 4-byte inputs), not the final position after the
reserved bytes (entry index plus 16). -/
theorem steve_C7_memcrc_slot (w : Nat) (hw : w < RAM_CMD_SIZE) :
    (cmd_MEMCRC w).1 = (w + 12) % RAM_CMD_SIZE
    ∧ (cmd_MEMCRC w).2 = (w + 16) % RAM_CMD_SIZE
    ∧ (cmd_MEMCRC w).1 ≠ (cmd_MEMCRC w).2 := by
  have e1 : (cmd_MEMCRC w).1 = ((w + 4) % 4096 + 8) % 4096 := by
    simp only [cmd_MEMCRC, Cmd_eq]
    have h8 : ((0 : Nat) + 4 + 4) = 8 := by norm_num
    rw [h8, indexAdd_nat]
  have e2 : (cmd_MEMCRC w).2 = ((w + 4) % 4096 + 12) % 4096 := by
    simp only [cmd_MEMCRC, Cmd_eq]
    have h12 : ((0 : Nat) + 4 + 4 + 4) = 12 := by norm_num
    rw [h12, indexAdd_nat]
  rw [e1, e2, RAM_CMD_SIZE_pow]
  refine ⟨by omega, by omega, by omega⟩

/-- Witness for C7 at the wrapping write index w = 4090. -/
theorem steve_C7_memcrc_slot_witness :
    (cmd_MEMCRC 4090).1 = (4090 + 12) % RAM_CMD_SIZE
    ∧ (cmd_MEMCRC 4090).2 = (4090 + 16) % RAM_CMD_SIZE
    ∧ (cmd_MEMCRC 4090).1 ≠ (cmd_MEMCRC 4090).2 :=
  steve_C7_memcrc_slot 4090 (by norm_num [RAM_CMD_SIZE])

lemma regWait8_fst_ne_zero (env : Nat → Nat) (addr value : Nat) :
    ∀ (fuel n : Nat),
      ((regWait8 env addr value n fuel).1 ≠ 0
        ↔ ∃ i, i < fuel - 1 ∧ env (n + i) = value) := by
  intro fuel
  induction fuel with
  | zero =>
      intro n
      simp [regWait8]
  | succ fuel ih =>
      intro n
      rw [regWait8]
      by_cases h : env n = value
      · rw [if_pos h]
        simp only [Nat.add_sub_cancel]
        constructor
        · intro hf
          exact ⟨0, by omega, by simpa using h⟩
        · rintro ⟨i, hi, _⟩
          simp only [ne_eq]
          omega
      · rw [if_neg h]
        simp only [Nat.add_sub_cancel]
        rw [ih (n + 1)]
        constructor
        · rintro ⟨j, hj, hv⟩
          exact ⟨j + 1, by omega, by rwa [show n + (j + 1) = n + 1 + j by ring]⟩
        · rintro ⟨i, hi, hv⟩
          cases i with
          | zero => exact absurd (by simpa using hv) h
          | succ j => exact ⟨j, by omega, by rwa [show n + 1 + j = n + (j + 1) by ring]⟩

/-- C3 counterexample: with a transport whose every read returns the
expected value 0x7C and maxtries = 1, the read at index 0 (within the
first maxtries reads) matches, yet RegWait8 returns 0 because the match
lands on the final allowed read; the claimed equivalence between a
nonzero result and a match within the first maxtries reads fails. -/
theorem steve_C3_regWait8_counterexample :
    ¬ (((regWait8 envAlways7C REG_ID 0x7C 0 1).1 ≠ 0)
        ↔ ∃ i, i < 1 ∧ envAlways7C i = 0x7C) := by
  intro h
  have h1 : (regWait8 envAlways7C REG_ID 0x7C 0 1).1 = 0 := by decide
  exact (h.mpr ⟨0, by norm_num, by decide⟩) h1

/-- C3 amended: RegWait8 with maxtries > 0 returns a nonzero result (the
number of retries remaining) iff some read among the first maxtries - 1
reads returns the expected value; a first match on the final
(maxtries-th) read also returns 0, indistinguishable from a timeout, and
when no read within maxtries attempts matches the function returns 0. -/
theorem steve_C3_regWait8_amended (env : Nat → Nat) (addr value maxtries : Nat)
    (h : 0 < maxtries) :
    (((regWait8 env addr value 0 maxtries).1 ≠ 0)
      ↔ ∃ i, i < maxtries - 1 ∧ env i = value)
    ∧ ((∀ i, i < maxtries → env i ≠ value)
        → (regWait8 env addr value 0 maxtries).1 = 0) := by
  have hchar := regWait8_fst_ne_zero env addr value maxtries 0
  simp only [Nat.zero_add] at hchar
  refine ⟨hchar, ?_⟩
  intro hall
  by_contra hne
  obtain ⟨i, hi, hv⟩ := hchar.mp hne
  exact hall i (by omega) hv

/-- Witness for C3 at a transport whose reads always return 0x7C,
register REG_ID, expected value 0x7C and maxtries = 3: the match on the
first read leaves two retries, so the result is nonzero and a match
exists among the first two reads. -/
theorem steve_C3_regWait8_amended_witness :
    (((regWait8 envAlways7C REG_ID 0x7C 0 3).1 ≠ 0)
      ↔ ∃ i, i < 3 - 1 ∧ envAlways7C i = 0x7C)
    ∧ ((∀ i, i < 3 → envAlways7C i ≠ 0x7C)
        → (regWait8 envAlways7C REG_ID 0x7C 0 3).1 = 0) :=
  steve_C3_regWait8_amended envAlways7C REG_ID 0x7C 3 (by norm_num)

/-- C5: for every SteveDisplay profile built by the constructor whose
per-axis timing sums fit the uint16_t fields, the computed cycle equals
frontporch + syncwidth + backporch + active + padding, the offset equals
frontporch + syncwidth + backporch, sync0 equals frontporch and sync1
equals frontporch + syncwidth, on both axes; in particular the 480 by 128
profile with horizontal porch 24, sync 11, back porch 6 and padding 521
yields hcycle 1042, hoffset 41 and hsync1 35. -/
theorem steve_C5_display_timing
    (width hfp hsw hbp hpad height vfp vsh vbp vpad pclk pclkpol swizzle : Nat)
    (hh : hfp + hsw + hbp + width + hpad < 65536)
    (hv : vfp + vsh + vbp + height + vpad < 65536) :
    (SteveDisplayMk width hfp hsw hbp hpad height vfp vsh vbp vpad pclk pclkpol swizzle).hcycle
        = hfp + hsw + hbp + width + hpad
    ∧ (SteveDisplayMk width hfp hsw hbp hpad height vfp vsh vbp vpad pclk pclkpol swizzle).hoffset
        = hfp + hsw + hbp
    ∧ (SteveDisplayMk width hfp hsw hbp hpad height vfp vsh vbp vpad pclk pclkpol swizzle).hsync0
        = hfp
    ∧ (SteveDisplayMk width hfp hsw hbp hpad height vfp vsh vbp vpad pclk pclkpol swizzle).hsync1
        = hfp + hsw
    ∧ (SteveDisplayMk width hfp hsw hbp hpad height vfp vsh vbp vpad pclk pclkpol swizzle).vcycle
        = vfp + vsh + vbp + height + vpad
    ∧ (SteveDisplayMk width hfp hsw hbp hpad height vfp vsh vbp vpad pclk pclkpol swizzle).voffset
        = vfp + vsh + vbp
    ∧ (SteveDisplayMk width hfp hsw hbp hpad height vfp vsh vbp vpad pclk pclkpol swizzle).vsync0
        = vfp
    ∧ (SteveDisplayMk width hfp hsw hbp hpad height vfp vsh vbp vpad pclk pclkpol swizzle).vsync1
        = vfp + vsh
    ∧ (SteveDisplayMk 480 24 11 6 521 128 12 3 5 0 5 1 0).hcycle = 1042
    ∧ (SteveDisplayMk 480 24 11 6 521 128 12 3 5 0 5 1 0).hoffset = 41
    ∧ (SteveDisplayMk 480 24 11 6 521 128 12 3 5 0 5 1 0).hsync1 = 35 := by
  simp [SteveDisplayMk]
  omega

/-- Witness for C5 at the 480 by 128 profile of the claim's scenario. -/
theorem steve_C5_display_timing_witness :
    (SteveDisplayMk 480 24 11 6 521 128 12 3 5 0 5 1 0).hcycle
        = 24 + 11 + 6 + 480 + 521
    ∧ (SteveDisplayMk 480 24 11 6 521 128 12 3 5 0 5 1 0).hoffset
        = 24 + 11 + 6
    ∧ (SteveDisplayMk 480 24 11 6 521 128 12 3 5 0 5 1 0).hsync0
        = 24
    ∧ (SteveDisplayMk 480 24 11 6 521 128 12 3 5 0 5 1 0).hsync1
        = 24 + 11
    ∧ (SteveDisplayMk 480 24 11 6 521 128 12 3 5 0 5 1 0).vcycle
        = 12 + 3 + 5 + 128 + 0
    ∧ (SteveDisplayMk 480 24 11 6 521 128 12 3 5 0 5 1 0).voffset
        = 12 + 3 + 5
    ∧ (SteveDisplayMk 480 24 11 6 521 128 12 3 5 0 5 1 0).vsync0
        = 12
    ∧ (SteveDisplayMk 480 24 11 6 521 128 12 3 5 0 5 1 0).vsync1
        = 12 + 3
    ∧ (SteveDisplayMk 480 24 11 6 521 128 12 3 5 0 5 1 0).hcycle = 1042
    ∧ (SteveDisplayMk 480 24 11 6 521 128 12 3 5 0 5 1 0).hoffset = 41
    ∧ (SteveDisplayMk 480 24 11 6 521 128 12 3 5 0 5 1 0).hsync1 = 35 :=
  steve_C5_display_timing 480 24 11 6 521 128 12 3 5 0 5 1 0
    (by norm_num) (by norm_num)

lemma regWait8_trace_mem (env : Nat → Nat) (addr value : Nat) :
    ∀ (fuel n : Nat), ∀ e ∈ (regWait8 env addr value n fuel).2.2, e = Ev.rd addr := by
  intro fuel
  induction fuel with
  | zero =>
      intro n e he
      simp [regWait8] at he
  | succ fuel ih =>
      intro n e he
      rw [regWait8] at he
      by_cases h : env n = value
      · rw [if_pos h] at he
        simpa using he
      · rw [if_neg h] at he
        simp only [List.mem_cons] at he
        rcases he with rfl | he
        · rfl
        · exact ih (n + 1) e he

/-- C8: when the profile requests the wildcard chip identifier, Begin
performs no read transaction addressed to the chip identifier word
REG_CHIP_ID, for every transport oracle, and never fails with the chip
identity mismatch. -/
theorem steve_C8_wildcard_skips_chip_id (p : SteveDisplay) (env : Nat → Nat)
    (h : p.chipid = CHIPID_ANY) :
    (∀ e ∈ (Begin p env).2, e ≠ Ev.rd REG_CHIP_ID)
    ∧ (Begin p env).1 ≠ BeginResult.failChipMismatch := by
  have hId : ∀ e ∈ (regWait8 env REG_ID 0x7C 0 250).2.2, e ≠ Ev.rd REG_CHIP_ID := by
    intro e he
    rw [regWait8_trace_mem env REG_ID 0x7C 250 0 e he]
    simp [REG_ID, REG_CHIP_ID]
  have hReset : ∀ n, ∀ e ∈ (regWait8 env REG_CPURESET 0 n 250).2.2,
      e ≠ Ev.rd REG_CHIP_ID := by
    intro n e he
    rw [regWait8_trace_mem env REG_CPURESET 0 250 n e he]
    simp [REG_CPURESET, REG_CHIP_ID]
  have hPin : ∀ e ∈ pindriveTrace p.pindrivetable, e ≠ Ev.rd REG_CHIP_ID := by
    cases hp : p.pindrivetable with
    | none =>
        intro e he
        simp [pindriveTrace] at he
    | some entries =>
        intro e he
        simp only [pindriveTrace, List.mem_map] at he
        obtain ⟨x, hx, rfl⟩ := he
        simp
  have hfalse : (p.chipid ≠ CHIPID_ANY) = False := by simp [h]
  simp only [Begin, hfalse, false_and, if_false]
  by_cases hc1 : (regWait8 env REG_ID 0x7C 0 250).1 = 0
  · rw [if_pos hc1]
    dsimp only []
    refine ⟨?_, by simp⟩
    intro e he
    rw [List.mem_append] at he
    rcases he with he | he
    · fin_cases he <;> simp
    · exact hId e he
  · rw [if_neg hc1]
    by_cases hc2 :
        (regWait8 env REG_CPURESET 0 (regWait8 env REG_ID 0x7C 0 250).2.1 250).1 = 0
    · rw [if_pos hc2]
      dsimp only []
      refine ⟨?_, by simp⟩
      intro e he
      simp only [List.append_assoc, List.mem_append] at he
      rcases he with he | he | he
      · fin_cases he <;> simp
      · exact hId e he
      · exact hReset _ e he
    · rw [if_neg hc2]
      dsimp only []
      refine ⟨?_, by simp⟩
      intro e he
      simp only [List.append_assoc, List.nil_append, List.append_nil,
        List.mem_append] at he
      rcases he with he | he | he | he | he | he | he | he | he | he | he
      · fin_cases he <;> simp
      · exact hId e he
      · exact hReset _ e he
      · split at he
        · fin_cases he <;> simp
        · simp at he
      · fin_cases he <;> simp [REG_CMD_WRITE, REG_CHIP_ID]
      · fin_cases he <;> simp [REG_GPIOX, REG_CHIP_ID]
      · exact hPin e he
      · fin_cases he <;> simp
      · split at he
        · fin_cases he <;> simp
        · simp at he
      · fin_cases he <;> simp
      · fin_cases he <;> simp [REG_GPIOX, REG_CHIP_ID]

/-- Witness for C8 at the wildcard 480 by 128 profile and a transport
whose first read returns the running id 0x7C and whose later reads
return 0. -/
theorem steve_C8_wildcard_skips_chip_id_witness :
    (∀ e ∈ (Begin (SteveDisplayMk 480 24 11 6 521 128 12 3 5 0 5 1 0) envRuns).2,
        e ≠ Ev.rd REG_CHIP_ID)
    ∧ (Begin (SteveDisplayMk 480 24 11 6 521 128 12 3 5 0 5 1 0) envRuns).1
        ≠ BeginResult.failChipMismatch :=
  steve_C8_wildcard_skips_chip_id (SteveDisplayMk 480 24 11 6 521 128 12 3 5 0 5 1 0)
    envRuns (by decide)

end Steve
